import Mathlib

/-!
Verification of the lazy ranges pipeline demo (`src/main.cpp`).

The program has two behaviors:

* `main` builds `numbers | filter(is_even) | transform(++n) | reverse`
  over `std::vector<int> {6,5,4,3,2,1}` and consumes it by printing
  (`show`).  Each C++ view stage is embedded below as a function on the
  list of elements delivered by its upstream stage at consumption time;
  a view object itself stores only the predicate/mapper (it holds a
  reference to the source, never a copy of its elements).

* `use_for_each` runs `ranges::for_each(vec | views::filter(even),
  [](int & i) { i += 1; })` over `std::vector<int> {1,2,3,4,5}`.  The
  filter iterator scans the vector left to right over its current
  contents: at each step `find_if` tests the next untested cell, and
  when the predicate holds the functional object mutates exactly that
  cell through the reference before the iterator advances past it.
  Cells already passed are never re-examined.  This left-to-right
  decide-then-mutate loop is embedded as structural recursion in which
  the head of the unprocessed suffix is tested against the predicate
  (its value still unmutated at that moment) and rewritten by the
  mutator exactly when the test succeeds.

Machine integers are modelled as `Int`; all values reached by the demo
are tiny, so `int` overflow is irrelevant, while the C++ truncating `%`
is modelled faithfully by `Int.tmod`.
-/

namespace STLRanges00

/-- The filtering lambda of `main` (`src/main.cpp:51`):
`[](auto const n) { return n % 2 == 0; }` with C++ truncating `%`. -/
def is_even (n : Int) : Bool := n.tmod 2 == 0

/-- The transform lambda of `main` (`src/main.cpp:57`):
`[](auto n) { return ++n; }` — `n` is a by-value copy, so the increment
returns `n + 1` without touching the source element. -/
def inc (n : Int) : Int := n + 1

/-- The filtering lambda of `use_for_each` (`src/main.cpp:81`):
`[](int i) { return 0 == i % 2; }`. -/
def even (i : Int) : Bool := 0 == i.tmod 2

/-- The mutating lambda of `use_for_each` (`src/main.cpp:85`):
`[](int & i) { i += 1; }`, acting in place on one vector cell. -/
def bump (i : Int) : Int := i + 1

/-- The `numbers` vector of `main` (`src/main.cpp:46`). -/
def numbers : List Int := [6, 5, 4, 3, 2, 1]

/-- The `vec` vector of `use_for_each` (`src/main.cpp:77`). -/
def vec : List Int := [1, 2, 3, 4, 5]

/-- Consumption of `std::views::filter(p)` (`src/main.cpp:55`): pulling
the filter view yields, in upstream order, exactly the upstream elements
on which the predicate returns `true`, skipping the others. -/
def filterConsume (p : Int → Bool) : List Int → List Int
  | [] => []
  | x :: xs => if p x then x :: filterConsume p xs else filterConsume p xs

/-- Consumption of `std::views::transform(f)` (`src/main.cpp:56`):
pulling the transform view yields `f` of each upstream element, in
upstream order. -/
def transformConsume (f : Int → Int) : List Int → List Int
  | [] => []
  | x :: xs => f x :: transformConsume f xs

/-- Consumption of `std::views::reverse` (`src/main.cpp:57`): pulling
the reverse view yields the upstream elements from the last back to the
first. -/
def reverseConsume : List Int → List Int
  | [] => []
  | x :: xs => reverseConsume xs ++ [x]

/-- A built pipeline object (`results` in `src/main.cpp:54-58`): the
composed view stores only the stage closures; it holds a reference to
`numbers`, not a copy of its elements, so no element data lives in it. -/
structure Pipeline where
  pred : Int → Bool
  mapper : Int → Int

/-- Consuming the composed view `source | filter(pred) | transform(mapper)
| reverse` (`show(results)`, `src/main.cpp:61`): the elements are pulled
from the state the source holds at consumption time. -/
def Pipeline.consume (pl : Pipeline) (source : List Int) : List Int :=
  reverseConsume (transformConsume pl.mapper (filterConsume pl.pred source))

/-- Building `results` (`src/main.cpp:54-58`) while the source vector
holds `atConstruction`: the view chain records the two closures and a
reference to the vector; none of the vector's contents enter the object. -/
def buildResults (_atConstruction : List Int) : Pipeline :=
  { pred := is_even, mapper := inc }

/-- The `show` lambda (`src/main.cpp:28-34`) reading a container by
`auto const &`: returns the printed element sequence together with the
container contents after the read loop. -/
def showRead : List Int → List Int × List Int
  | [] => ([], [])
  | x :: xs =>
    let r := showRead xs
    (x :: r.fst, x :: r.snd)

/-- `show(results)` as a state transformer on `numbers`
(`src/main.cpp:61`): the loop reads the source through the view chain
element by element; the pair is (printed sequence, source afterwards). -/
def consumeResults (pl : Pipeline) (source : List Int) : List Int × List Int :=
  let r := showRead source
  (pl.consume r.fst, r.snd)

/-- Two successive `show(results)` consumptions with no intervening
write to the source (`main` could print the view again): returns the two
printed sequences and the final source state. -/
def consumeResultsTwice (pl : Pipeline) (source : List Int) :
    (List Int × List Int) × List Int :=
  let r₁ := consumeResults pl source
  let r₂ := consumeResults pl r₁.snd
  ((r₁.fst, r₂.fst), r₂.snd)

/-- The `ranges::for_each(vec | views::filter(p), m)` loop
(`src/main.cpp:83-85`) as recursion over the unprocessed suffix of the
vector: `find_if` tests the next cell at its current (still unmutated)
value; on a match the functional object rewrites that very cell through
the `int &` before the iterator moves past it; either way the iterator
never returns to cells on its left. -/
def forEachFiltered (p : Int → Bool) (m : Int → Int) : List Int → List Int
  | [] => []
  | x :: xs =>
    if p x then m x :: forEachFiltered p m xs
    else x :: forEachFiltered p m xs

/-- `forEachFiltered` instrumented with effect counters: returns the
final vector contents, the number of calls to the mutating functional
object, and the number of predicate evaluations performed by the filter
iterator while scanning. -/
def forEachFilteredCount (p : Int → Bool) (m : Int → Int) :
    List Int → List Int × Nat × Nat
  | [] => ([], 0, 0)
  | x :: xs =>
    let r := forEachFilteredCount p m xs
    if p x then (m x :: r.1, r.2.1 + 1, r.2.2 + 1)
    else (x :: r.1, r.2.1, r.2.2 + 1)

/-- The whole of `use_for_each` (`src/main.cpp:75-87`) restricted to its
state on `vec`: the final contents of the vector. -/
def use_for_each : List Int := forEachFiltered even bump vec

section ConsumeLemmas

/-- Pulling the filter view delivers `List.filter` of the upstream. -/
theorem filterConsume_eq (p : Int → Bool) (l : List Int) :
    filterConsume p l = l.filter p := by
  induction l with
  | nil => rfl
  | cons x xs ih => by_cases h : p x <;> simp [filterConsume, List.filter, h, ih]

/-- Pulling the transform view delivers `List.map` of the upstream. -/
theorem transformConsume_eq (f : Int → Int) (l : List Int) :
    transformConsume f l = l.map f := by
  induction l with
  | nil => rfl
  | cons x xs ih => simp [transformConsume, ih]

/-- Pulling the reverse view delivers `List.reverse` of the upstream. -/
theorem reverseConsume_eq (l : List Int) :
    reverseConsume l = l.reverse := by
  induction l with
  | nil => rfl
  | cons x xs ih => simp [reverseConsume, ih]

/-- The read-only `show` loop prints every element in order and leaves
the container exactly as it was. -/
theorem showRead_eq (l : List Int) : showRead l = (l, l) := by
  induction l with
  | nil => rfl
  | cons x xs ih => simp [showRead, ih]

/-- Consuming the composed pipeline materializes
`reverse (map mapper (filter pred source))`. -/
theorem Pipeline.consume_eq (pl : Pipeline) (source : List Int) :
    pl.consume source = ((source.filter pl.pred).map pl.mapper).reverse := by
  simp [Pipeline.consume, filterConsume_eq, transformConsume_eq, reverseConsume_eq]

/-- The decide-then-mutate loop rewrites each cell independently: the
final vector maps each original cell through `mutator` exactly when the
predicate held of its original value. -/
theorem forEachFiltered_eq_map (p : Int → Bool) (m : Int → Int) (l : List Int) :
    forEachFiltered p m l = l.map fun x => if p x then m x else x := by
  induction l with
  | nil => rfl
  | cons x xs ih => by_cases h : p x <;> simp [forEachFiltered, h, ih]

/-- The instrumented loop computes the same final vector, one mutator
call per matching cell, and one predicate evaluation per cell. -/
theorem forEachFilteredCount_eq (p : Int → Bool) (m : Int → Int) (l : List Int) :
    forEachFilteredCount p m l =
      (forEachFiltered p m l, (l.filter p).length, l.length) := by
  induction l with
  | nil => rfl
  | cons x xs ih =>
    by_cases h : p x <;>
      simp [forEachFilteredCount, forEachFiltered, List.filter, h, ih]

/-- Truncating remainder classifies evenness correctly on all of `Int`. -/
theorem tmod_two_eq_zero_iff (n : Int) : n.tmod 2 = 0 ↔ 2 ∣ n :=
  Int.dvd_iff_tmod_eq_zero.symm

/-- The `even` lambda decides mathematical evenness. -/
theorem even_eq_true_iff (i : Int) : even i = true ↔ Even i := by
  rw [even, beq_iff_eq, eq_comm, tmod_two_eq_zero_iff, ← even_iff_two_dvd]

end ConsumeLemmas

/-- C1: for the fixed source `[6,5,4,3,2,1]` with predicate "is even"
and mapper "increment by 1", consuming the pipeline
`filter | transform | reverse` produces exactly `[3, 5, 7]`. -/
theorem results_on_numbers_eq :
    (buildResults numbers).consume numbers = [3, 5, 7] := by decide

/-- C2 counterexample: after `use_for_each`'s mutating traversal of
`[1,2,3,4,5]` the vector is not `[1,3,3,4,5]`; in particular the cell
that held `4` was not left untouched (it holds `5`). -/
theorem use_for_each_ne_claimed :
    use_for_each ≠ [1, 3, 3, 4, 5] ∧ use_for_each[3]? = some 5 := by decide

/-- C2 amended: after the mutating filtered traversal of `[1,2,3,4,5]`
with predicate "is even" and mutator "increment by 1" the vector equals
`[1,3,3,5,5]`: the element `4` is still even when the filter iterator
reaches it (the earlier mutation only changed the cell holding `2`), so
it too is incremented. -/
theorem use_for_each_eq :
    use_for_each = [1, 3, 3, 5, 5] := by decide

/-- C3: consuming the pipeline always yields the reverse of the mapper
applied to the elements of the source satisfying the predicate in
original order; an empty source or an unsatisfiable predicate yields the
empty sequence. -/
theorem consume_is_reverse_map_filter (p : Int → Bool) (f : Int → Int)
    (src : List Int) :
    (Pipeline.mk p f).consume src = ((src.filter p).map f).reverse ∧
    (Pipeline.mk p f).consume [] = [] ∧
    ((∀ x ∈ src, p x = false) → (Pipeline.mk p f).consume src = []) := by
  refine ⟨Pipeline.consume_eq .., by simp [Pipeline.consume_eq], fun h => ?_⟩
  rw [Pipeline.consume_eq]
  have hnil : src.filter p = [] :=
    List.filter_eq_nil_iff.mpr fun x hx => by simp [h x hx]
  simp [hnil]

/-- C3 witness: the general consumption theorem instantiated at the
all-odd source `[1, 3, 5]`. -/
theorem consume_is_reverse_map_filter_witness :
    (Pipeline.mk is_even inc).consume [1, 3, 5] =
      ((([1, 3, 5] : List Int).filter is_even).map inc).reverse ∧
    (Pipeline.mk is_even inc).consume [1, 3, 5] = [] :=
  ⟨(consume_is_reverse_map_filter is_even inc [1, 3, 5]).1,
   (consume_is_reverse_map_filter is_even inc [1, 3, 5]).2.2 (by decide)⟩

/-- C4: the mutating filtered traversal keeps the length, and cell by
cell it applies the mutator exactly when the cell's pre-call value
satisfies the predicate, leaving every other cell unchanged and in
place. -/
theorem forEachFiltered_pointwise (p : Int → Bool) (m : Int → Int)
    (v : List Int) :
    (forEachFiltered p m v).length = v.length ∧
    ∀ i : Nat, (forEachFiltered p m v)[i]? =
      v[i]?.map fun x => if p x then m x else x := by
  rw [forEachFiltered_eq_map]
  exact ⟨List.length_map .., fun i => List.getElem?_map ..⟩

/-- C5: fully consuming the pure pipeline never mutates the source: the
post-consumption source equals the pre-consumption source, while the
printed sequence is the filter-map-reverse result. -/
theorem consume_leaves_source_unchanged (pl : Pipeline) (source : List Int) :
    (consumeResults pl source).snd = source ∧
    (consumeResults pl source).fst =
      ((source.filter pl.pred).map pl.mapper).reverse := by
  simp [consumeResults, showRead_eq, Pipeline.consume_eq]

/-- C6: consuming the pipeline's result twice over an unchanged source
prints the same sequence both times. -/
theorem consume_twice_same (pl : Pipeline) (source : List Int) :
    (consumeResultsTwice pl source).fst.fst =
      (consumeResultsTwice pl source).fst.snd := by
  simp [consumeResultsTwice, consumeResults, showRead_eq]

/-- C7: the view chain takes no snapshot: the built object is the same
whatever the source held at construction time, and consumption after any
modification `g` of the source reflects the state `g s` at consumption
time, not the state `s` at construction time. -/
theorem consume_uses_state_at_consumption (s : List Int)
    (g : List Int → List Int) :
    buildResults s = buildResults (g s) ∧
    (buildResults s).consume (g s) =
      (((g s).filter is_even).map inc).reverse := by
  exact ⟨rfl, Pipeline.consume_eq ..⟩

/-- C8: on an empty vector the traversal is a no-op with zero mutator
calls; with an always-false predicate the vector is unchanged and the
mutator is never called, yet the predicate is still evaluated once per
element. -/
theorem forEach_empty_and_no_match (p : Int → Bool) (m : Int → Int)
    (v : List Int) :
    forEachFilteredCount p m [] = ([], 0, 0) ∧
    forEachFilteredCount (fun _ => false) m v = (v, 0, v.length) := by
  refine ⟨rfl, ?_⟩
  rw [forEachFilteredCount_eq, forEachFiltered_eq_map]
  simp

/-- C9: after the mutating traversal with predicate "is even" and
mutator "increment by 1", every element of the vector is odd, whatever
the input vector was. -/
theorem forEach_result_all_odd (v : List Int) :
    ∀ y ∈ forEachFiltered even bump v, Odd y := by
  intro y hy
  rw [forEachFiltered_eq_map] at hy
  obtain ⟨x, hx, rfl⟩ := List.mem_map.mp hy
  by_cases h : even x = true
  · rw [if_pos h]
    exact Even.add_one ((even_eq_true_iff x).mp h)
  · rw [if_neg h]
    exact Int.not_even_iff_odd.mp fun he => h ((even_eq_true_iff x).mpr he)

/-- C9 witness: the all-odd theorem applied to the program's own vector
`[1,2,3,4,5]` at the member `3` of the traversal's result. -/
theorem forEach_result_all_odd_witness :
    (3 : Int) ∈ forEachFiltered even bump vec ∧ Odd (3 : Int) :=
  ⟨by decide, forEach_result_all_odd vec 3 (by decide)⟩

/-- C10: the evenness test `n % 2 == 0` with C++ truncating remainder
classifies every integer correctly, negatives included, and the two
filtering lambdas of the program agree everywhere. -/
theorem is_even_correct (n : Int) :
    (is_even n = true ↔ Even n) ∧ even n = is_even n := by
  constructor
  · rw [is_even, beq_iff_eq, tmod_two_eq_zero_iff, ← even_iff_two_dvd]
  · rw [is_even, even, Bool.eq_iff_iff, beq_iff_eq, beq_iff_eq, eq_comm]

end STLRanges00

